import Mathlib

/-!
Shallow embedding of `app.py`, a staff-timetable viewer: a loader that
normalizes a two-header-row CSV into one row per staff member (columns
연번/교과/부서/교사 plus one column per weekday-period slot), and query
functions over the loaded table (common free slots, per-slot availability,
name and subject/department filters).

Cell contents and column names are modelled as `List Char`; a "slot key" is
a flat column name such as "월1" (weekday label ++ period number), exactly
the strings the code builds.  A missing (NaN) cell is `Option.none` in the
raw input and becomes the empty string via `fillna('')`.
-/

namespace Timetable

/-- `isPre pat s`: does `s` start with `pat`?  (Helper for substring search.) -/
def isPre : List Char → List Char → Bool
  | [], _ => true
  | _ :: _, [] => false
  | a :: as, b :: bs => a == b && isPre as bs

/-- `containsPat pat s`: does `pat` occur as a contiguous substring of `s`?
Embeds Python's `pat in s` on strings. -/
def containsPat (pat : List Char) : List Char → Bool
  | [] => isPre pat []
  | c :: rest => isPre pat (c :: rest) || containsPat pat rest

/-- Embeds `'Unnamed' in col[0]` (line 30 of `app.py`): pandas names a blank
first-header-row cell `Unnamed: k_level_0`, so the code detects a blank
weekday cell by this substring test. -/
def containsUnnamed (s : List Char) : Bool :=
  containsPat ("Unnamed".toList) s

/-- Embeds the header-flattening loop of `load_data_from_github`
(lines 28–33): for each slot column `(top, period)`, the weekday is the top
cell when it is labelled, otherwise the carried-forward `day_temp`; the flat
name is `day ++ period`, and `day_temp` becomes that weekday. -/
def flattenSlotCols (dayTemp : List Char) :
    List (List Char × List Char) → List (List Char)
  | [] => []
  | (top, period) :: rest =>
    let day := if containsUnnamed top then dayTemp else top
    (day ++ period) :: flattenSlotCols day rest

/-- Embeds the character class `[가-힣]` (line 38): precomposed Hangul
syllables U+AC00 – U+D7A3. -/
def isHangul (c : Char) : Bool :=
  0xAC00 ≤ c.toNat && c.toNat ≤ 0xD7A3

/-- Embeds the name-cleaning lambda of line 38:
`re.match(r'^[가-힣]+', str(x)).group(0) if re.match(...) else x`.
The regex match succeeds iff the string starts with a Hangul character, and
`group(0)` is then the maximal leading Hangul run (`takeWhile`); otherwise
the raw value passes through unchanged. -/
def cleanName (s : List Char) : List Char :=
  if s.takeWhile isHangul = [] then s else s.takeWhile isHangul

/-- Embeds `astype(int)` on a 연번 cell (line 37): an all-digit string
parses to its value, anything else raises (`none`). -/
def parseSeq (s : List Char) : Option Nat :=
  if !s.isEmpty && s.all Char.isDigit then
    some (s.foldl (fun acc c => acc * 10 + (c.toNat - 48)) 0)
  else none

/-- One raw data row as it comes out of `pd.read_csv`: a possibly-missing
연번 cell, possibly-missing 교과/부서 cells, the raw 교사 label (already put
through `str`), and the slot cells keyed by flat column name. -/
structure RawRow where
  seq : Option (List Char)
  subject : Option (List Char)
  dept : Option (List Char)
  name : List Char
  slots : List Char → Option (List Char)

/-- One loaded row of the normalized table: integer 연번, cleaned 교사 name,
교과/부서 and every slot defaulted to the empty string by `fillna('')`. -/
structure StaffRecord where
  seq : Nat
  subject : List Char
  dept : List Char
  name : List Char
  slots : List Char → List Char

/-- Embeds lines 37–39 applied to one kept row: coerce 연번 to an integer
(raising on a non-numeric cell), clean the 교사 name, and replace missing
cells by the empty string. -/
def coerceRow (r : RawRow) : Except (List Char) StaffRecord :=
  match r.seq with
  | none => Except.error ("cannot convert NA to integer".toList)
  | some s =>
    match parseSeq s with
    | none => Except.error ("invalid literal for int: ".toList ++ s)
    | some n =>
      Except.ok
        { seq := n
          subject := r.subject.getD []
          dept := r.dept.getD []
          name := cleanName r.name
          slots := fun k => (r.slots k).getD [] }

/-- Coerce every kept row, failing as a whole on the first bad row, as the
`try`/`except` of `load_data_from_github` does. -/
def loadAux : List RawRow → Except (List Char) (List StaffRecord)
  | [] => Except.ok []
  | r :: rest =>
    match coerceRow r with
    | Except.error e => Except.error e
    | Except.ok rec =>
      match loadAux rest with
      | Except.error e => Except.error e
      | Except.ok recs => Except.ok (rec :: recs)

/-- Embeds the row pipeline of `load_data_from_github` (lines 36–40):
`dropna(subset=['연번'])` drops rows with a blank 연번 cell, then the
remaining rows are coerced; any exception makes the whole load fail and the
caller receives no table, only the error message. -/
def load_data_from_github (rows : List RawRow) :
    Except (List Char) (List StaffRecord) :=
  loadAux (rows.filter (fun r => r.seq.isSome))

/-- Embeds `(df_filtered[col_name] == '').all()` (line 116 of
`display_combined_timetable`): a slot is a common free slot iff every
record's cell at that column is the empty string. -/
def commonFreeSlots (recs : List StaffRecord) (col : List Char) : Bool :=
  recs.all (fun r => r.slots col == [])

/-- Embeds lines 130–131 of `display_availability_filter`:
`available = df[df[col] == '']['교사'].tolist()` and
`unavailable = df[df[col] != '']['교사'].tolist()`. -/
def slotAvailability (recs : List StaffRecord) (col : List Char) :
    List (List Char) × List (List Char) :=
  ((recs.filter (fun r => r.slots col == [])).map StaffRecord.name,
   (recs.filter (fun r => r.slots col != [])).map StaffRecord.name)

/-- Embeds lines 128–136 of `display_availability_filter` including the
guard `if target_col in df_filtered.columns:`: when the target column is
absent the whole body is skipped, so no output is produced (`none`) and no
error is raised. -/
def availabilityQuery (cols : List (List Char)) (recs : List StaffRecord)
    (targetCol : List Char) :
    Option (List (List Char) × List (List Char)) :=
  if cols.contains targetCol then some (slotAvailability recs targetCol)
  else none

/-- Embeds the name-filter branch (lines 167–171): `filtered_df` starts as
an empty frame and is replaced by `df[df['교사'].isin(teachers)]` only when
the selected name list is non-empty. -/
def filterByNames (table : List StaffRecord) (names : List (List Char)) :
    List StaffRecord :=
  if names.isEmpty then [] else table.filter (fun r => names.contains r.name)

/-- Embeds the subject/department branch (lines 172–179): `q_parts` gets
one membership condition per non-empty criteria set, the conditions are
joined with `" and "`, and `filtered_df` stays empty when both sets are
empty. -/
def filterBySubjectOrDepartment (table : List StaffRecord)
    (subjects departments : List (List Char)) : List StaffRecord :=
  if subjects.isEmpty && departments.isEmpty then []
  else
    table.filter (fun r =>
      ((if subjects.isEmpty then [] else [subjects.contains r.subject]) ++
        (if departments.isEmpty then [] else [departments.contains r.dept])).all id)

/-- C1: `commonFreeSlots` is correct: the result is `true` at a slot iff
every record in the collection has the empty string there, and for a
singleton collection it equals that record's own free/busy test. -/
theorem commonFreeSlots_correct (recs : List StaffRecord)
    (r : StaffRecord) (col : List Char) :
    (commonFreeSlots recs col = true ↔ ∀ q ∈ recs, q.slots col = []) ∧
      commonFreeSlots [r] col = (r.slots col == []) := by
  constructor
  · simp [commonFreeSlots]
  · simp [commonFreeSlots]

/-- C10: over an empty record collection the all-records-free check is
vacuously true, so every slot is reported as a common free slot. -/
theorem commonFreeSlots_empty (col : List Char) :
    commonFreeSlots [] col = true := rfl

/-- C7: `filterByNames` identities: the empty name set yields the empty
result, the set of all names occurring in the table yields the table
itself, and the result is always a subsequence of the table in source
order. -/
theorem filterByNames_identities (table : List StaffRecord)
    (names : List (List Char)) :
    filterByNames table [] = [] ∧
      filterByNames table (table.map StaffRecord.name) = table ∧
      (filterByNames table names).Sublist table := by
  refine ⟨rfl, ?_, ?_⟩
  · cases h : table with
    | nil => simp [filterByNames]
    | cons r rest =>
      rw [← h]
      have hne : (table.map StaffRecord.name).isEmpty = false := by
        rw [h]; rfl
      rw [filterByNames, hne]
      simp only [Bool.false_eq_true, if_false]
      refine List.filter_eq_self.mpr ?_
      intro a ha
      exact List.elem_eq_true_of_mem (List.mem_map_of_mem StaffRecord.name ha)
  · rw [filterByNames]
    cases names.isEmpty
    · simp only [Bool.false_eq_true, if_false]
      exact List.filter_sublist table
    · simp

/-- C2: `filterBySubjectOrDepartment` applies the conjunction of whichever
criteria sets are active: with both sets non-empty a record is kept iff its
subject is in `subjects` and its department is in `departments`; with only
one set non-empty that one filters alone; with both empty the result is
empty. -/
theorem filterBySubjectOrDepartment_conjunction (table : List StaffRecord)
    (subjects departments : List (List Char)) :
    (subjects ≠ [] → departments ≠ [] →
        filterBySubjectOrDepartment table subjects departments =
          table.filter (fun r =>
            subjects.contains r.subject && departments.contains r.dept)) ∧
      (subjects ≠ [] → departments = [] →
        filterBySubjectOrDepartment table subjects departments =
          table.filter (fun r => subjects.contains r.subject)) ∧
      (subjects = [] → departments ≠ [] →
        filterBySubjectOrDepartment table subjects departments =
          table.filter (fun r => departments.contains r.dept)) ∧
      (subjects = [] → departments = [] →
        filterBySubjectOrDepartment table subjects departments = []) := by
  refine ⟨?_, ?_, ?_, ?_⟩
  · intro hs hd
    rw [filterBySubjectOrDepartment]
    rw [List.isEmpty_eq_false_iff_exists_mem.mpr
      (List.exists_mem_of_ne_nil subjects hs)]
    rw [List.isEmpty_eq_false_iff_exists_mem.mpr
      (List.exists_mem_of_ne_nil departments hd)]
    simp
  · intro hs hd
    subst hd
    rw [filterBySubjectOrDepartment]
    rw [List.isEmpty_eq_false_iff_exists_mem.mpr
      (List.exists_mem_of_ne_nil subjects hs)]
    simp
  · intro hs hd
    subst hs
    rw [filterBySubjectOrDepartment]
    rw [List.isEmpty_eq_false_iff_exists_mem.mpr
      (List.exists_mem_of_ne_nil departments hd)]
    simp
  · intro hs hd
    subst hs; subst hd
    rfl

/-- Witness for C2: on a concrete one-row table with both criteria sets
non-empty, the filter keeps the row exactly by the conjunction; with both
sets empty it returns the empty list. -/
theorem filterBySubjectOrDepartment_conjunction_witness :
    filterBySubjectOrDepartment
        [⟨1, "수학".toList, "교무부".toList, "김민정".toList, fun _ => []⟩]
        ["수학".toList] ["연구부".toList] =
      List.filter
        (fun r => List.contains ["수학".toList] r.subject &&
          List.contains ["연구부".toList] r.dept)
        [⟨1, "수학".toList, "교무부".toList, "김민정".toList, fun _ => []⟩] ∧
      filterBySubjectOrDepartment
        [⟨1, "수학".toList, "교무부".toList, "김민정".toList, fun _ => []⟩]
        [] [] = [] := by
  constructor
  · exact (filterBySubjectOrDepartment_conjunction _ _ _).1
      (by decide) (by decide)
  · exact (filterBySubjectOrDepartment_conjunction _ _ _).2.2.2 rfl rfl

/-- Two records sharing the 교사 name 김민정, one free and one busy at 월1:
names are not required to be unique in the table (only 연번 is). -/
def dupRecs : List StaffRecord :=
  [⟨1, [], [], "김민정".toList, fun _ => []⟩,
   ⟨2, [], [], "김민정".toList, fun _ => "수학".toList⟩]

/-- The flat column name 월1. -/
def mon1 : List Char := "월1".toList

/-- C6 counterexample: with two records sharing the name 김민정, one free
and one busy at 월1, that name occurs in both the available and the
unavailable list, so the two name sequences are not disjoint and the name
does not appear on exactly one side. -/
theorem slotAvailability_partition_cex :
    "김민정".toList ∈ (slotAvailability dupRecs mon1).1 ∧
      "김민정".toList ∈ (slotAvailability dupRecs mon1).2 := by
  constructor
  · simp [slotAvailability, dupRecs]
  · simp [slotAvailability, dupRecs, mon1]

/-- C6 as amended: when the records' names are pairwise distinct,
`slotAvailability` partitions the input: the available and unavailable name
sequences are disjoint, their lengths sum to the number of records, every
record's name appears on exactly one side, and each side preserves the
input order (it is a sublist of the names in input order). -/
theorem slotAvailability_partition (recs : List StaffRecord)
    (col : List Char) (h : (recs.map StaffRecord.name).Nodup) :
    (slotAvailability recs col).1.length +
        (slotAvailability recs col).2.length = recs.length ∧
      (∀ n ∈ (slotAvailability recs col).1,
        n ∉ (slotAvailability recs col).2) ∧
      (∀ r ∈ recs,
        (r.name ∈ (slotAvailability recs col).1 ∧
            r.name ∉ (slotAvailability recs col).2) ∨
          (r.name ∈ (slotAvailability recs col).2 ∧
            r.name ∉ (slotAvailability recs col).1)) ∧
      (slotAvailability recs col).1.Sublist (recs.map StaffRecord.name) ∧
      (slotAvailability recs col).2.Sublist (recs.map StaffRecord.name) := by
  have hdisj : ∀ n ∈ (slotAvailability recs col).1,
      n ∉ (slotAvailability recs col).2 := by
    intro n hn1 hn2
    simp only [slotAvailability, List.mem_map, List.mem_filter,
      beq_iff_eq, bne_iff_ne] at hn1 hn2
    obtain ⟨r1, ⟨hr1, hp1⟩, hname1⟩ := hn1
    obtain ⟨r2, ⟨hr2, hp2⟩, hname2⟩ := hn2
    have heq : r1 = r2 :=
      List.inj_on_of_nodup_map h hr1 hr2 (hname1.trans hname2.symm)
    subst heq
    exact hp2 hp1
  refine ⟨?_, hdisj, ?_, ?_, ?_⟩
  · simp only [slotAvailability, List.length_map]
    have hsplit : recs.length =
        (recs.filter (fun r => r.slots col == [])).length +
          (recs.filter (fun r => r.slots col != [])).length :=
      List.length_eq_length_filter_add (fun r => r.slots col == [])
    omega
  · intro r hr
    by_cases hp : r.slots col = []
    · have hin1 : r.name ∈ (slotAvailability recs col).1 :=
        List.mem_map_of_mem StaffRecord.name
          (List.mem_filter.mpr ⟨hr, by simp [hp]⟩)
      exact Or.inl ⟨hin1, hdisj _ hin1⟩
    · have hin2 : r.name ∈ (slotAvailability recs col).2 :=
        List.mem_map_of_mem StaffRecord.name
          (List.mem_filter.mpr ⟨hr, by simp [hp]⟩)
      exact Or.inr ⟨hin2, fun hin1 => hdisj _ hin1 hin2⟩
  · exact List.Sublist.map StaffRecord.name (List.filter_sublist recs)
  · exact List.Sublist.map StaffRecord.name (List.filter_sublist recs)

/-- Two records with distinct names, one free and one busy at 월1. -/
def partRecs : List StaffRecord :=
  [⟨1, [], [], "김민정".toList, fun _ => []⟩,
   ⟨2, [], [], "박철수".toList, fun _ => "수학".toList⟩]

/-- Witness for the amended C6 at a concrete two-record table with
distinct names. -/
theorem slotAvailability_partition_witness :
    (partRecs.map StaffRecord.name).Nodup ∧
      ((slotAvailability partRecs mon1).1.length +
          (slotAvailability partRecs mon1).2.length = partRecs.length ∧
        (∀ n ∈ (slotAvailability partRecs mon1).1,
          n ∉ (slotAvailability partRecs mon1).2) ∧
        (∀ r ∈ partRecs,
          (r.name ∈ (slotAvailability partRecs mon1).1 ∧
              r.name ∉ (slotAvailability partRecs mon1).2) ∨
            (r.name ∈ (slotAvailability partRecs mon1).2 ∧
              r.name ∉ (slotAvailability partRecs mon1).1)) ∧
        (slotAvailability partRecs mon1).1.Sublist
          (partRecs.map StaffRecord.name) ∧
        (slotAvailability partRecs mon1).2.Sublist
          (partRecs.map StaffRecord.name)) :=
  ⟨by decide, slotAvailability_partition partRecs mon1 (by decide)⟩

/-- The identity columns of a table that has no slot columns at all. -/
def cexCols : List (List Char) := ["연번".toList, "교사".toList]

/-- C9 counterexample: with the slot key 화3 absent from the table's
columns, the availability query produces no output at all (`none`) and
raises nothing — it silently skips instead of failing loudly. -/
theorem availabilityQuery_silent_cex :
    cexCols.contains ("화3".toList) = false ∧
      availabilityQuery cexCols [] ("화3".toList) = none := by
  constructor
  · decide
  · decide

/-- C9 as amended: the availability query produces no output exactly when
the slot key is absent from the table's columns — the unrecognized-key
case is a silent skip guarded by the column-membership test, not a loud
failure. -/
theorem availabilityQuery_none_iff (cols : List (List Char))
    (recs : List StaffRecord) (col : List Char) :
    availabilityQuery cols recs col = none ↔
      cols.contains col = false := by
  rw [availabilityQuery]
  cases h : cols.contains col <;> simp

/-- The leading Hangul run of a list is unchanged by taking its own
leading Hangul run. -/
theorem takeWhile_isHangul_idem (s : List Char) :
    (s.takeWhile isHangul).takeWhile isHangul = s.takeWhile isHangul := by
  induction s with
  | nil => rfl
  | cons a t ih => cases h : isHangul a <;> simp [List.takeWhile_cons, h, ih]

/-- C4: name cleaning extracts the leading contiguous Hangul run when the
raw value starts with a Hangul character, otherwise returns the raw value
unchanged; cleaning is idempotent; and cleaning 김민정(16) yields 김민정. -/
theorem cleanName_correct (s : List Char) :
    (∀ c t, s = c :: t → isHangul c = true →
        cleanName s = s.takeWhile isHangul ∧ cleanName s ≠ []) ∧
      (∀ c t, s = c :: t → isHangul c = false → cleanName s = s) ∧
      cleanName (cleanName s) = cleanName s ∧
      cleanName ("김민정(16)".toList) = "김민정".toList := by
  refine ⟨?_, ?_, ?_, by decide⟩
  · rintro c t rfl hc
    simp [cleanName, List.takeWhile_cons, hc]
  · rintro c t rfl hc
    simp [cleanName, List.takeWhile_cons, hc]
  · by_cases h : s.takeWhile isHangul = []
    · simp [cleanName, h]
    · have h1 : cleanName s = s.takeWhile isHangul := by
        simp [cleanName, h]
      rw [h1, cleanName, takeWhile_isHangul_idem, if_neg h]

/-- Witness for C4 at the concrete raw value 김민정(16), whose first
character is Hangul. -/
theorem cleanName_correct_witness :
    cleanName ("김민정(16)".toList) =
        ("김민정(16)".toList).takeWhile isHangul ∧
      cleanName ("김민정(16)".toList) ≠ [] :=
  (cleanName_correct ("김민정(16)".toList)).1 '김' ("민정(16)".toList)
    (by decide) (by decide)

/-- C5: for a 7-column weekday block whose first-row label sits only on the
first column (the other six top cells being pandas `Unnamed` blanks), every
derived flat column name carries that weekday prefix concatenated with the
periods 1..7 in order, whatever weekday was carried in before the block. -/
theorem header_flattening (d dayTemp b2 b3 b4 b5 b6 b7 : List Char)
    (hd : containsUnnamed d = false)
    (h2 : containsUnnamed b2 = true) (h3 : containsUnnamed b3 = true)
    (h4 : containsUnnamed b4 = true) (h5 : containsUnnamed b5 = true)
    (h6 : containsUnnamed b6 = true) (h7 : containsUnnamed b7 = true) :
    flattenSlotCols dayTemp
        [(d, "1".toList), (b2, "2".toList), (b3, "3".toList),
         (b4, "4".toList), (b5, "5".toList), (b6, "6".toList),
         (b7, "7".toList)] =
      [d ++ "1".toList, d ++ "2".toList, d ++ "3".toList, d ++ "4".toList,
       d ++ "5".toList, d ++ "6".toList, d ++ "7".toList] := by
  simp [flattenSlotCols, hd, h2, h3, h4, h5, h6, h7]

/-- Witness for C5: the 월 block with six pandas-named blank top cells
flattens to 월1..월7. -/
theorem header_flattening_witness :
    flattenSlotCols []
        [("월".toList, "1".toList), ("Unnamed: 6_level_0".toList, "2".toList),
         ("Unnamed: 7_level_0".toList, "3".toList),
         ("Unnamed: 8_level_0".toList, "4".toList),
         ("Unnamed: 9_level_0".toList, "5".toList),
         ("Unnamed: 10_level_0".toList, "6".toList),
         ("Unnamed: 11_level_0".toList, "7".toList)] =
      ["월1".toList, "월2".toList, "월3".toList, "월4".toList,
       "월5".toList, "월6".toList, "월7".toList] :=
  header_flattening ("월".toList) [] _ _ _ _ _ _ (by decide) (by decide)
    (by decide) (by decide) (by decide) (by decide) (by decide)

/-- Every raw row of a successfully coerced batch coerces successfully on
its own. -/
theorem loadAux_ok_mem : ∀ (l : List RawRow) (out : List StaffRecord),
    loadAux l = Except.ok out →
    ∀ r ∈ l, ∃ rec, coerceRow r = Except.ok rec := by
  intro l
  induction l with
  | nil => intro out _ r hr; cases hr
  | cons a t ih =>
    intro out h r hr
    simp only [loadAux] at h
    cases hc : coerceRow a with
    | error e => rw [hc] at h; simp at h
    | ok rec =>
      rw [hc] at h
      cases ht : loadAux t with
      | error e => rw [ht] at h; simp at h
      | ok recs =>
        rcases List.mem_cons.mp hr with rfl | hmem
        · exact ⟨rec, hc⟩
        · exact ih recs ht r hmem

/-- C3: if any row kept after blank-연번 removal has a non-numeric 연번
cell, the whole load fails: the caller gets an error message and no table
at all. -/
theorem load_fails_on_nonnumeric (rows : List RawRow) (r : RawRow)
    (s : List Char) (hr : r ∈ rows) (hs : r.seq = some s)
    (hbad : parseSeq s = none) :
    ∃ e, load_data_from_github rows = Except.error e := by
  cases hres : load_data_from_github rows with
  | error e => exact ⟨e, rfl⟩
  | ok out =>
    exfalso
    have hmem : r ∈ rows.filter (fun q => q.seq.isSome) :=
      List.mem_filter.mpr ⟨hr, by simp [hs]⟩
    obtain ⟨rec, hrec⟩ := loadAux_ok_mem _ out hres r hmem
    simp [coerceRow, hs, hbad] at hrec

/-- A spacer row: blank 연번 cell, everything else missing too. -/
def blankRow : RawRow :=
  { seq := none, subject := none, dept := none,
    name := "합계".toList, slots := fun _ => none }

/-- A row whose 연번 cell holds the non-numeric text `abc`. -/
def badRow : RawRow :=
  { seq := some ("abc".toList), subject := none, dept := none,
    name := "김민정".toList, slots := fun _ => none }

/-- Witness for C3: a batch containing a non-numeric 연번 row loads to an
error, not to a table. -/
theorem load_fails_on_nonnumeric_witness :
    ∃ e, load_data_from_github [blankRow, badRow] = Except.error e :=
  load_fails_on_nonnumeric [blankRow, badRow] badRow ("abc".toList)
    (List.mem_cons_of_mem _ (List.mem_cons_self _ _)) rfl (by decide)

/-- A successfully coerced batch corresponds element-wise, in order, to its
raw rows. -/
theorem loadAux_forall2 : ∀ (l : List RawRow) (out : List StaffRecord),
    loadAux l = Except.ok out →
    List.Forall₂ (fun raw rec => coerceRow raw = Except.ok rec) l out := by
  intro l
  induction l with
  | nil =>
    intro out h
    simp only [loadAux, Except.ok.injEq] at h
    subst h
    exact List.Forall₂.nil
  | cons a t ih =>
    intro out h
    simp only [loadAux] at h
    cases hc : coerceRow a with
    | error e => rw [hc] at h; simp at h
    | ok rec =>
      rw [hc] at h
      cases ht : loadAux t with
      | error e => rw [ht] at h; simp at h
      | ok recs =>
        rw [ht] at h
        simp only [Except.ok.injEq] at h
        subst h
        exact List.Forall₂.cons hc (ih recs ht)

/-- C8: on a successful load the output rows correspond exactly, in order,
to the source rows whose 연번 cell is non-blank — a blank-연번 row never
appears regardless of its other fields, and every output row's sequence
number was parsed from its row's non-blank 연번 cell. -/
theorem load_drops_blank_rows (rows : List RawRow) (out : List StaffRecord)
    (h : load_data_from_github rows = Except.ok out) :
    List.Forall₂
      (fun raw rec => ∃ s, raw.seq = some s ∧ parseSeq s = some rec.seq)
      (rows.filter (fun r => r.seq.isSome)) out := by
  refine (loadAux_forall2 _ out h).imp ?_
  intro raw rec hcr
  cases hseq : raw.seq with
  | none => simp [coerceRow, hseq] at hcr
  | some s =>
    cases hps : parseSeq s with
    | none => simp [coerceRow, hseq, hps] at hcr
    | some n =>
      simp only [coerceRow, hseq, hps, Except.ok.injEq] at hcr
      subst hcr
      exact ⟨s, rfl, hps⟩

/-- A well-formed row: 연번 cell `1`, subject 수학, raw name 김민정(16). -/
def goodRow : RawRow :=
  { seq := some ("1".toList), subject := some ("수학".toList), dept := none,
    name := "김민정(16)".toList, slots := fun _ => none }

/-- The record `goodRow` loads to. -/
def goodRec : StaffRecord :=
  { seq := 1, subject := "수학".toList, dept := [],
    name := "김민정".toList, slots := fun _ => [] }

/-- Witness for C8: loading a spacer row followed by a well-formed row
yields exactly the one record coming from the well-formed row. -/
theorem load_drops_blank_rows_witness :
    ∃ out, load_data_from_github [blankRow, goodRow] = Except.ok out ∧
      List.Forall₂
        (fun raw rec => ∃ s, raw.seq = some s ∧ parseSeq s = some rec.seq)
        (List.filter (fun r => r.seq.isSome) [blankRow, goodRow]) out :=
  ⟨[goodRec], rfl, load_drops_blank_rows [blankRow, goodRow] [goodRec] rfl⟩

end Timetable
